import Mathlib

/-!
Verification of the Jira daily reporting utility.

Part 1 models the report-aggregation core (`ReportAggregator.aggregate`)
described in the specification: issue records are turned into a
`ReportDigest` holding five summary views.  The aggregation module itself
(`src/report_generator.py`) is not part of the checked-in sources, so the
definitions below are modelled from the specification text, as indicated
on each definition.

Part 2 embeds the two functions that are present in the checked-in
notebook `gmail_testing.ipynb`: `load_config` and the two merge-conflict
variants of `send_email`.
-/

/-- Modelled from the spec: timestamps (date + time, normalized to UTC at
ingestion) are represented as integer seconds since the epoch. -/
abbrev Timestamp := Int

/-- Modelled from the spec (§3, Data Model): an input issue record.
`assignee`, `priority` and `due_at` are optional; the rest are required. -/
structure Issue where
  key : String
  status : String
  assignee : Option String
  priority : Option String
  created_at : Timestamp
  due_at : Option Timestamp
  project_key : String
deriving Repr, DecidableEq

/-- Modelled from the spec (§4.1): the four recognized aggregation options. -/
structure AggregationConfig where
  blocked_status_label : String
  in_progress_status_label : String
  closed_status_labels : List String
  old_backlog_threshold_days : Nat
deriving Repr, DecidableEq

/-- Modelled from the spec (§4.1): the documented default configuration. -/
def AggregationConfig.default : AggregationConfig :=
  { blocked_status_label := "Blocked"
    in_progress_status_label := "In Progress"
    closed_status_labels := ["Done", "Closed", "Resolved"]
    old_backlog_threshold_days := 50 }

def secondsPerDay : Int := 86400

/-- Modelled from the spec (§4.1 step 4): age in whole days,
`floor((now - created_at) in days)`, clamped to be at least 0. -/
def ageDays (now : Timestamp) (i : Issue) : Nat :=
  ((now - i.created_at).fdiv secondsPerDay).toNat

/-- Modelled from the spec (§4.1 steps 1 and 5): one group of a summary
mapping.  `tenths` is the percentage of the total expressed in tenths of a
percent, i.e. the percentage rounded to one decimal place. -/
structure SummaryEntry where
  label : String
  count : Nat
  tenths : Nat
deriving Repr, DecidableEq

/-- Modelled from the spec: `count / total × 100` rounded to the nearest
tenth of a percent, returned in tenths (so `1000` means `100.0%`). -/
def pctTenths (count total : Nat) : Nat :=
  (2000 * count + total) / (2 * total)

/-- Modelled from the spec (§3): summary groups are ordered by count
descending, ties broken by label ascending. -/
def summaryOrder (a b : SummaryEntry) : Prop :=
  b.count < a.count ∨ (a.count = b.count ∧ a.label ≤ b.label)

instance : DecidableRel summaryOrder := fun a b =>
  decidable_of_iff (b.count < a.count ∨ (a.count = b.count ∧ a.label ≤ b.label)) Iff.rfl

/-- Modelled from the spec (§4.1 steps 1 and 5): group a list of labels,
count each distinct label, attach the rounded percentage, and sort by
count descending then label ascending. -/
def summaryOf (keys : List String) : List SummaryEntry :=
  List.insertionSort summaryOrder
    (keys.dedup.map fun l => ⟨l, keys.count l, pctTenths (keys.count l) keys.length⟩)

/-- Modelled from the spec (§4.1 step 1): group issues by `status`. -/
def statusSummary (issues : List Issue) : List SummaryEntry :=
  summaryOf (issues.map (·.status))

/-- Modelled from the spec (§4.1 step 5): the grouping label for the
assignee distribution, substituting the sentinel "Unassigned" wherever
`assignee` is absent or empty. -/
def assigneeLabel (i : Issue) : String :=
  match i.assignee with
  | none => "Unassigned"
  | some a => if a.isEmpty then "Unassigned" else a

/-- Modelled from the spec (§4.1 step 5): group issues by assignee label. -/
def assigneeDistribution (issues : List Issue) : List SummaryEntry :=
  summaryOf (issues.map assigneeLabel)

/-- Modelled from the spec (§4.1 step 2): blocked issues are ordered by
`created_at` ascending. -/
def blockedOrder (a b : Issue) : Prop :=
  a.created_at ≤ b.created_at

instance : DecidableRel blockedOrder := fun a b =>
  decidable_of_iff (a.created_at ≤ b.created_at) Iff.rfl

/-- Modelled from the spec (§4.1 step 4): old-backlog issues are ordered by
age descending, ties broken by `created_at` ascending. -/
def backlogOrder (now : Timestamp) (a b : Issue) : Prop :=
  ageDays now b < ageDays now a ∨
    (ageDays now a = ageDays now b ∧ a.created_at ≤ b.created_at)

instance (now : Timestamp) : DecidableRel (backlogOrder now) := fun a b =>
  decidable_of_iff (ageDays now b < ageDays now a ∨
    (ageDays now a = ageDays now b ∧ a.created_at ≤ b.created_at)) Iff.rfl

/-- Modelled from the spec (§3 and §4.1 step 3): an in-progress issue with
its two derived flags. -/
structure InProgressEntry where
  issue : Issue
  missing_due_date : Bool
  behind_schedule : Bool
deriving Repr, DecidableEq

/-- Modelled from the spec (§4.1 step 3): annotate an in-progress issue
with `missing_due_date` (due date absent) and `behind_schedule` (due date
present and strictly before the `generated_at` of the digest). -/
def annotateInProgress (now : Timestamp) (i : Issue) : InProgressEntry :=
  { issue := i
    missing_due_date := i.due_at.isNone
    behind_schedule :=
      match i.due_at with
      | some d => decide (d < now)
      | none => false }

/-- Modelled from the spec (§3): the aggregated report for one project. -/
structure ReportDigest where
  generated_at : Timestamp
  project_key : String
  status_summary : List SummaryEntry
  blocked_issues : List Issue
  in_progress_issues : List InProgressEntry
  old_backlog_issues : List Issue
  assignee_distribution : List SummaryEntry
deriving Repr, DecidableEq

/-- Modelled from the spec (§4.1): the pure aggregation function
`aggregate(issues, project_key, now, config) -> ReportDigest` of
`report_generator.py`, which is not among the checked-in sources. -/
def aggregate (issues : List Issue) (project_key : String) (now : Timestamp)
    (cfg : AggregationConfig) : ReportDigest :=
  { generated_at := now
    project_key := project_key
    status_summary := statusSummary issues
    blocked_issues :=
      List.insertionSort blockedOrder
        (issues.filter fun i => decide (i.status = cfg.blocked_status_label))
    in_progress_issues :=
      (issues.filter fun i => decide (i.status = cfg.in_progress_status_label)).map
        (annotateInProgress now)
    old_backlog_issues :=
      List.insertionSort (backlogOrder now)
        (issues.filter fun i =>
          decide (i.status ∉ cfg.closed_status_labels ∧
            cfg.old_backlog_threshold_days < ageDays now i))
    assignee_distribution := assigneeDistribution issues }

/-- Modelled from the spec (§7): the error raised for malformed input,
carrying the project key and the key of the offending record when
available. -/
structure InvalidInputError where
  project_key : String
  record_key : Option String
deriving Repr, DecidableEq

/-- Modelled from the spec (§7): a raw record as read from the tracker,
before validation; any field may be missing. -/
structure RawRecord where
  key : Option String
  status : Option String
  assignee : Option String
  priority : Option String
  created_at : Option Timestamp
  due_at : Option Timestamp
  project_key : Option String
deriving Repr, DecidableEq

/-- Modelled from the spec (§3, §7): a record is well-formed when every
required Issue field (`key`, `status`, `created_at`, `project_key`) is
present. -/
def RawRecord.wellFormed (r : RawRecord) : Bool :=
  r.key.isSome && r.status.isSome && r.created_at.isSome && r.project_key.isSome

/-- Modelled from the spec (§7): validate one raw record, failing with an
`InvalidInputError` when a required field is missing. -/
def parseRecord (pk : String) (r : RawRecord) : Except InvalidInputError Issue :=
  match r.key, r.status, r.created_at, r.project_key with
  | some k, some s, some c, some p =>
      .ok { key := k, status := s, assignee := r.assignee, priority := r.priority
            created_at := c, due_at := r.due_at, project_key := p }
  | _, _, _, _ => .error { project_key := pk, record_key := r.key }

/-- Modelled from the spec (§7): validate a whole sequence of records; the
first malformed record aborts the whole aggregation for the project. -/
def parseRecords (pk : String) : List RawRecord → Except InvalidInputError (List Issue)
  | [] => .ok []
  | r :: rs =>
      match parseRecord pk r with
      | .error e => .error e
      | .ok i =>
          match parseRecords pk rs with
          | .error e => .error e
          | .ok is => .ok (i :: is)

/-- Modelled from the spec (§4.1, §7): aggregation over raw records, which
either fails with `InvalidInputError` (no partial digest) or returns the
whole digest. -/
def aggregateRaw (records : List RawRecord) (pk : String) (now : Timestamp)
    (cfg : AggregationConfig) : Except InvalidInputError ReportDigest :=
  match parseRecords pk records with
  | .error e => .error e
  | .ok issues => .ok (aggregate issues pk now cfg)

/-!
Part 2: the notebook `gmail_testing.ipynb`.

`load_config` reads `config.json`; the embedding abstracts the filesystem
and the JSON parser into a `ConfigFile` observation, and models Python
truthiness of JSON values with `PyValue.truthy`.

The `send_email` cell of the notebook contains an unresolved merge
conflict: the variant before the conflict marker (here `send_email_head`)
joins the recipient list for the To header and guards `server.quit()`
behind a None check; the variant after the marker (`send_email_merged`)
assigns the raw recipient value to the To header and calls
`server.quit()` unconditionally in the `finally` block.  The embedding
records the observable outcome of one call: the To header value, whether
the failure message was printed, whether `quit` completed, and the name
of any exception escaping the function.
-/

/-- A JSON value as `load_config` inspects it: only enough structure to
decide Python truthiness.  Containers are abstracted to their sizes. -/
inductive PyValue where
  | str (s : String)
  | num (n : Int)
  | boolean (b : Bool)
  | null
  | arr (size : Nat)
  | dict (size : Nat)
deriving Repr, DecidableEq

/-- Python truthiness of a JSON value: empty strings, zero, `false`,
`null` and empty containers are falsy. -/
def PyValue.truthy : PyValue → Bool
  | .str s => !s.isEmpty
  | .num n => n != 0
  | .boolean b => b
  | .null => false
  | .arr size => size != 0
  | .dict size => size != 0

/-- The state of the configuration file as `load_config` observes it:
missing, unreadable (`open`/read raises, the generic `except` branch),
unparsable (`json.JSONDecodeError`), or a parsed JSON object given by its
key/value entries. -/
inductive ConfigFile where
  | absent
  | readRaises
  | invalidJson
  | jsonDict (entries : List (String × PyValue))
deriving Repr, DecidableEq

/-- The notebook function `load_config` (cell 3 of `gmail_testing.ipynb`):
returns `none` when the file does not exist, cannot be read or parsed,
lacks `email_address` or `email_password`, or has a falsy
`email_password`; otherwise returns the parsed dictionary. -/
def load_config (file : ConfigFile) : Option (List (String × PyValue)) :=
  match file with
  | .absent => none
  | .invalidJson => none
  | .readRaises => none
  | .jsonDict config_data =>
      if !((config_data.lookup "email_address").isSome &&
            (config_data.lookup "email_password").isSome) then
        none
      else if !(((config_data.lookup "email_password").getD .null).truthy) then
        none
      else
        some config_data

/-- The value stored in the To header of the message: the HEAD variant
stores the comma-joined string, the merged variant stores the raw Python
list object. -/
inductive HeaderVal where
  | str (s : String)
  | pyList (items : List String)
deriving Repr, DecidableEq

/-- Which step of the SMTP session fails, if any: `smtplib.SMTP(...)`
(the connection), `starttls()`, `login(...)`, `sendmail(...)`, or none. -/
inductive SmtpWorld where
  | connectFails
  | starttlsFails
  | loginFails
  | sendFails
  | allOk
deriving Repr, DecidableEq

/-- The observable outcome of one `send_email` call. -/
structure SendResult where
  toHeader : HeaderVal
  printedFailure : Bool
  quitCalled : Bool
  uncaught : Option String
deriving Repr, DecidableEq

/-- `server = smtplib.SMTP(...)` is the first statement of the `try`
block, so the `server` variable is non-None exactly when connecting
succeeded. -/
def serverCreated : SmtpWorld → Bool
  | .connectFails => false
  | _ => true

/-- Whether the `try` body raises at some step (connect, starttls, login
or sendmail); every such exception reaches the `except` clause. -/
def tryBodyRaises : SmtpWorld → Bool
  | .allOk => false
  | _ => true

/-- The HEAD variant of `send_email` in `gmail_testing.ipynb`:
`msg[To] = ", ".join(to_email)`; the `except` clause prints the failure
message; the `finally` block runs `server.quit()` only under
`if server is not None`. -/
def send_email_head (to_email : List String) (w : SmtpWorld) : SendResult :=
  { toHeader := HeaderVal.str (String.intercalate ", " to_email)
    printedFailure := tryBodyRaises w
    quitCalled := serverCreated w
    uncaught := none }

/-- The incoming-merge variant of `send_email` in `gmail_testing.ipynb`:
`msg[To] = to_email` (the raw list), and the `finally` block runs
`server.quit()` unconditionally, so when the connection failed the
attribute access on the still-None `server` raises an `AttributeError`
that escapes the function. -/
def send_email_merged (to_email : List String) (w : SmtpWorld) : SendResult :=
  if serverCreated w then
    { toHeader := HeaderVal.pyList to_email
      printedFailure := tryBodyRaises w
      quitCalled := true
      uncaught := none }
  else
    { toHeader := HeaderVal.pyList to_email
      printedFailure := tryBodyRaises w
      quitCalled := false
      uncaught := some "AttributeError" }

/-!
Order-relation facts and membership helpers used by several claims.
-/

instance : IsTotal Issue blockedOrder :=
  ⟨fun a b => Int.le_total a.created_at b.created_at⟩

instance : IsTrans Issue blockedOrder :=
  ⟨fun _ _ _ hab hbc => le_trans hab hbc⟩

instance (now : Timestamp) : IsTotal Issue (backlogOrder now) := by
  constructor
  intro a b
  rcases Nat.lt_trichotomy (ageDays now a) (ageDays now b) with h | h | h
  · exact Or.inr (Or.inl h)
  · rcases Int.le_total a.created_at b.created_at with hc | hc
    · exact Or.inl (Or.inr ⟨h, hc⟩)
    · exact Or.inr (Or.inr ⟨h.symm, hc⟩)
  · exact Or.inl (Or.inl h)

instance (now : Timestamp) : IsTrans Issue (backlogOrder now) := by
  constructor
  intro a b c hab hbc
  rcases hab with h1 | ⟨h1e, h1c⟩ <;> rcases hbc with h2 | ⟨h2e, h2c⟩
  · exact Or.inl (by omega)
  · exact Or.inl (by omega)
  · exact Or.inl (by omega)
  · exact Or.inr ⟨by omega, le_trans h1c h2c⟩

theorem mem_blocked_iff (issues : List Issue) (pk : String) (now : Timestamp)
    (cfg : AggregationConfig) (i : Issue) :
    i ∈ (aggregate issues pk now cfg).blocked_issues ↔
      i ∈ issues ∧ i.status = cfg.blocked_status_label := by
  dsimp only [aggregate]
  rw [(List.perm_insertionSort _ _).mem_iff, List.mem_filter]
  simp

theorem mem_old_backlog_iff (issues : List Issue) (pk : String) (now : Timestamp)
    (cfg : AggregationConfig) (i : Issue) :
    i ∈ (aggregate issues pk now cfg).old_backlog_issues ↔
      i ∈ issues ∧ i.status ∉ cfg.closed_status_labels ∧
        cfg.old_backlog_threshold_days < ageDays now i := by
  dsimp only [aggregate]
  rw [(List.perm_insertionSort _ _).mem_iff, List.mem_filter]
  simp

/-!
Sample issues used by the concrete witnesses.  `sampleNow` is 100 days
after the epoch.
-/

def sampleNow : Timestamp := 8640000

def issueBlockedOld : Issue :=
  { key := "DEVOPS-1", status := "Blocked", assignee := some "Ada"
    priority := some "High", created_at := 0, due_at := none, project_key := "DEVOPS" }

def issueDoneOld : Issue :=
  { key := "DEVOPS-2", status := "Done", assignee := none
    priority := none, created_at := 0, due_at := none, project_key := "DEVOPS" }

def issueInProgressNoDue : Issue :=
  { key := "DEVOPS-3", status := "In Progress", assignee := some ""
    priority := none, created_at := 8600000, due_at := none, project_key := "DEVOPS" }

def issueInProgressLate : Issue :=
  { key := "DEVOPS-4", status := "In Progress", assignee := some "Bob"
    priority := none, created_at := 8600000, due_at := some 8553600, project_key := "DEVOPS" }

def issueFuture : Issue :=
  { key := "DEVOPS-5", status := "To Do", assignee := none
    priority := none, created_at := 8643600, due_at := none, project_key := "DEVOPS" }

/-- C1: for every issue sequence, project key, timestamp and
configuration, calling `aggregate` twice with identical inputs yields
identical `ReportDigest` results: `aggregate` is a deterministic,
side-effect-free function of its four arguments. -/
theorem C1_aggregate_deterministic
    (issues₁ issues₂ : List Issue) (pk₁ pk₂ : String) (now₁ now₂ : Timestamp)
    (cfg₁ cfg₂ : AggregationConfig)
    (hi : issues₁ = issues₂) (hk : pk₁ = pk₂) (hn : now₁ = now₂) (hc : cfg₁ = cfg₂) :
    aggregate issues₁ pk₁ now₁ cfg₁ = aggregate issues₂ pk₂ now₂ cfg₂ := by
  rw [hi, hk, hn, hc]

theorem C1_aggregate_deterministic_witness :
    aggregate [issueBlockedOld] "DEVOPS" sampleNow AggregationConfig.default =
      aggregate [issueBlockedOld] "DEVOPS" sampleNow AggregationConfig.default :=
  C1_aggregate_deterministic [issueBlockedOld] [issueBlockedOld] "DEVOPS" "DEVOPS"
    sampleNow sampleNow AggregationConfig.default AggregationConfig.default rfl rfl rfl rfl

/-- C2: `blocked_issues` contains exactly the input issues whose status
equals the configured `blocked_status_label` (exact, case-sensitive
match), ordered by `created_at` ascending, with no truncation or limit. -/
theorem C2_blocked_issues (issues : List Issue) (pk : String) (now : Timestamp)
    (cfg : AggregationConfig) :
    ((aggregate issues pk now cfg).blocked_issues).Perm
        (issues.filter fun i => decide (i.status = cfg.blocked_status_label)) ∧
      List.Sorted blockedOrder ((aggregate issues pk now cfg).blocked_issues) ∧
      ∀ i : Issue, i ∈ (aggregate issues pk now cfg).blocked_issues ↔
        i ∈ issues ∧ i.status = cfg.blocked_status_label := by
  refine ⟨?_, ?_, mem_blocked_iff issues pk now cfg⟩
  · dsimp only [aggregate]
    exact List.perm_insertionSort _ _
  · dsimp only [aggregate]
    exact List.sorted_insertionSort blockedOrder _

theorem C2_blocked_issues_witness :
    issueBlockedOld ∈ (aggregate [issueBlockedOld, issueDoneOld] "DEVOPS" sampleNow
      AggregationConfig.default).blocked_issues :=
  ((C2_blocked_issues [issueBlockedOld, issueDoneOld] "DEVOPS" sampleNow
      AggregationConfig.default).2.2 issueBlockedOld).mpr ⟨List.mem_cons_self _ _, rfl⟩

/-- C3: `old_backlog_issues` contains exactly the input issues whose
status is not in `closed_status_labels` and whose clamped whole-day age
strictly exceeds `old_backlog_threshold_days`; it is ordered by age
descending with ties broken by `created_at` ascending, and a closed issue
is excluded regardless of its age. -/
theorem C3_old_backlog_issues (issues : List Issue) (pk : String) (now : Timestamp)
    (cfg : AggregationConfig) :
    ((aggregate issues pk now cfg).old_backlog_issues).Perm
        (issues.filter fun i =>
          decide (i.status ∉ cfg.closed_status_labels ∧
            cfg.old_backlog_threshold_days < ageDays now i)) ∧
      List.Sorted (backlogOrder now) ((aggregate issues pk now cfg).old_backlog_issues) ∧
      (∀ i : Issue, i ∈ (aggregate issues pk now cfg).old_backlog_issues ↔
        i ∈ issues ∧ i.status ∉ cfg.closed_status_labels ∧
          cfg.old_backlog_threshold_days < ageDays now i) ∧
      ∀ i : Issue, i ∈ issues → i.status ∈ cfg.closed_status_labels →
        i ∉ (aggregate issues pk now cfg).old_backlog_issues := by
  refine ⟨?_, ?_, mem_old_backlog_iff issues pk now cfg, ?_⟩
  · dsimp only [aggregate]
    exact List.perm_insertionSort _ _
  · dsimp only [aggregate]
    exact List.sorted_insertionSort (backlogOrder now) _
  · intro i _ hclosed hmem
    exact ((mem_old_backlog_iff issues pk now cfg i).mp hmem).2.1 hclosed

theorem C3_old_backlog_issues_witness :
    issueDoneOld ∉ (aggregate [issueBlockedOld, issueDoneOld] "DEVOPS" sampleNow
      AggregationConfig.default).old_backlog_issues :=
  (C3_old_backlog_issues [issueBlockedOld, issueDoneOld] "DEVOPS" sampleNow
      AggregationConfig.default).2.2.2 issueDoneOld
    (List.mem_cons_of_mem _ (List.mem_cons_self _ _)) (by decide)

/-- C4: every entry of `in_progress_issues` comes from an input issue
whose status equals the configured in-progress label, in input order;
`missing_due_date` holds iff `due_at` is absent, and `behind_schedule`
holds iff `due_at` is present and strictly before the `generated_at` of
the digest (which equals `now`). -/
theorem C4_in_progress_issues (issues : List Issue) (pk : String) (now : Timestamp)
    (cfg : AggregationConfig) :
    ((aggregate issues pk now cfg).in_progress_issues).map (·.issue) =
        issues.filter (fun i => decide (i.status = cfg.in_progress_status_label)) ∧
      (aggregate issues pk now cfg).generated_at = now ∧
      ∀ e ∈ (aggregate issues pk now cfg).in_progress_issues,
        (e.missing_due_date = true ↔ e.issue.due_at = none) ∧
        (e.behind_schedule = true ↔ ∃ t, e.issue.due_at = some t ∧ t < now) := by
  refine ⟨?_, rfl, ?_⟩
  · dsimp only [aggregate]
    rw [List.map_map]
    exact List.map_id _
  · intro e he
    dsimp only [aggregate] at he
    obtain ⟨i, _, rfl⟩ := List.mem_map.mp he
    constructor
    · simp [annotateInProgress, Option.isNone_iff_eq_none]
    · cases hdue : i.due_at <;> simp [annotateInProgress, hdue]

theorem C4_in_progress_issues_witness :
    ((annotateInProgress sampleNow issueInProgressNoDue).missing_due_date = true) ∧
      ((annotateInProgress sampleNow issueInProgressLate).behind_schedule = true) := by
  have h := C4_in_progress_issues [issueInProgressNoDue, issueInProgressLate] "DEVOPS"
    sampleNow AggregationConfig.default
  refine ⟨((h.2.2 _ ?_).1).mpr rfl, ((h.2.2 _ ?_).2).mpr ⟨8553600, rfl, by decide⟩⟩
  · decide
  · decide

theorem parseRecord_error_iff (pk : String) (r : RawRecord) :
    (∃ e, parseRecord pk r = Except.error e) ↔ r.wellFormed = false := by
  unfold parseRecord RawRecord.wellFormed
  cases hk : r.key <;> cases hs : r.status <;> cases hc : r.created_at <;>
    cases hp : r.project_key <;> simp [hk, hs, hc, hp]

theorem parseRecords_error_iff (pk : String) (rs : List RawRecord) :
    (∃ e, parseRecords pk rs = Except.error e) ↔ ∃ r ∈ rs, r.wellFormed = false := by
  induction rs with
  | nil =>
      constructor
      · rintro ⟨e, he⟩
        exact absurd he (by simp [parseRecords])
      · rintro ⟨r, hr, _⟩
        exact absurd hr (List.not_mem_nil r)
  | cons r rs ih =>
      constructor
      · rintro ⟨e, he⟩
        unfold parseRecords at he
        cases hpr : parseRecord pk r with
        | error e0 =>
            exact ⟨r, List.mem_cons_self r rs, (parseRecord_error_iff pk r).mp ⟨e0, hpr⟩⟩
        | ok i =>
            rw [hpr] at he
            cases hps : parseRecords pk rs with
            | error e1 =>
                obtain ⟨r1, hr1, hw⟩ := ih.mp ⟨e1, hps⟩
                exact ⟨r1, List.mem_cons_of_mem r hr1, hw⟩
            | ok is =>
                rw [hps] at he
                exact absurd he (by simp)
      · rintro ⟨r1, hr1, hw⟩
        rcases List.mem_cons.mp hr1 with rfl | hr1
        · obtain ⟨e0, he0⟩ := (parseRecord_error_iff pk r1).mpr hw
          refine ⟨e0, ?_⟩
          unfold parseRecords
          rw [he0]
        · cases hpr : parseRecord pk r with
          | error e0 =>
              exact ⟨e0, by unfold parseRecords; rw [hpr]⟩
          | ok i =>
              obtain ⟨e1, he1⟩ := ih.mpr ⟨r1, hr1, hw⟩
              exact ⟨e1, by unfold parseRecords; rw [hpr, he1]⟩

/-- C5: `aggregate` over raw records fails with an `InvalidInputError`
iff the input contains a record that is not a well-formed Issue, and on
failure no partial digest is produced; an empty issue sequence is not an
error and yields the digest of the empty issue list. -/
theorem C5_invalid_input (records : List RawRecord) (pk : String) (now : Timestamp)
    (cfg : AggregationConfig) :
    ((∃ e, aggregateRaw records pk now cfg = Except.error e) ↔
        ∃ r ∈ records, r.wellFormed = false) ∧
      (∀ e d, aggregateRaw records pk now cfg = Except.error e →
        aggregateRaw records pk now cfg ≠ Except.ok d) ∧
      aggregateRaw [] pk now cfg = Except.ok (aggregate [] pk now cfg) := by
  refine ⟨?_, ?_, rfl⟩
  · rw [← parseRecords_error_iff pk records]
    unfold aggregateRaw
    cases h : parseRecords pk records <;> simp
  · intro e d he hd
    rw [he] at hd
    exact absurd hd (by simp)

def badRecord : RawRecord :=
  { key := some "DEVOPS-9", status := some "Blocked", assignee := none
    priority := none, created_at := none, due_at := none, project_key := some "DEVOPS" }

theorem C5_invalid_input_witness :
    ∃ e, aggregateRaw [badRecord] "DEVOPS" sampleNow AggregationConfig.default =
      Except.error e :=
  (C5_invalid_input [badRecord] "DEVOPS" sampleNow AggregationConfig.default).1.mpr
    ⟨badRecord, List.mem_cons_self _ _, by decide⟩

theorem ageDays_eq_zero_of_future (now : Timestamp) (i : Issue)
    (h : now < i.created_at) : ageDays now i = 0 := by
  unfold ageDays
  have hneg : now - i.created_at < 0 := sub_neg.mpr h
  have hdiv := Int.fdiv_neg' hneg (show (0 : Int) < secondsPerDay by decide)
  exact Int.toNat_of_nonpos (le_of_lt hdiv)

theorem label_mem_summaryOf {keys : List String} {l : String} (h : l ∈ keys) :
    l ∈ (summaryOf keys).map (·.label) := by
  unfold summaryOf
  rw [((List.perm_insertionSort summaryOrder _).map (·.label)).mem_iff]
  rw [List.map_map]
  simpa [List.mem_dedup] using h

/-- C6: an issue whose `created_at` is later than `now` is still
processed (its status shows up in the status summary), its age is clamped
to exactly 0 days, and it is excluded from `old_backlog_issues` purely
because its clamped age cannot exceed the (non-negative) threshold. -/
theorem C6_future_created_at (issues : List Issue) (pk : String) (now : Timestamp)
    (cfg : AggregationConfig) (i : Issue) (hmem : i ∈ issues)
    (hfut : now < i.created_at) :
    ageDays now i = 0 ∧
      i ∉ (aggregate issues pk now cfg).old_backlog_issues ∧
      i.status ∈ ((aggregate issues pk now cfg).status_summary).map (·.label) := by
  have hage := ageDays_eq_zero_of_future now i hfut
  refine ⟨hage, ?_, ?_⟩
  · intro hmem2
    have h := (mem_old_backlog_iff issues pk now cfg i).mp hmem2
    rw [hage] at h
    exact absurd h.2.2 (Nat.not_lt_zero _)
  · dsimp only [aggregate, statusSummary]
    exact label_mem_summaryOf (List.mem_map_of_mem (·.status) hmem)

theorem C6_future_created_at_witness :
    ageDays sampleNow issueFuture = 0 ∧
      issueFuture ∉ (aggregate [issueFuture] "DEVOPS" sampleNow
        AggregationConfig.default).old_backlog_issues ∧
      issueFuture.status ∈ ((aggregate [issueFuture] "DEVOPS" sampleNow
        AggregationConfig.default).status_summary).map (·.label) :=
  C6_future_created_at [issueFuture] "DEVOPS" sampleNow AggregationConfig.default
    issueFuture (List.mem_cons_self _ _) (by decide)

theorem summaryOf_counts_sum (keys : List String) :
    ((summaryOf keys).map (·.count)).sum = keys.length := by
  unfold summaryOf
  rw [((List.perm_insertionSort summaryOrder _).map (·.count)).sum_eq]
  rw [List.map_map]
  simpa [Function.comp] using List.sum_map_count_dedup_eq_length keys

theorem summaryOf_tenths (keys : List String) :
    ∀ e ∈ summaryOf keys, e.tenths = pctTenths e.count keys.length := by
  intro e he
  unfold summaryOf at he
  rw [(List.perm_insertionSort _ _).mem_iff] at he
  obtain ⟨l, _, rfl⟩ := List.mem_map.mp he
  rfl

theorem pctTenths_bound (c t : Nat) (ht : 0 < t) :
    ((2 * (t : Int)) * (pctTenths c t : Int) - 2000 * (c : Int)).natAbs ≤ t := by
  have hd := Nat.div_add_mod (2000 * c + t) (2 * t)
  have hm : (2000 * c + t) % (2 * t) < 2 * t := Nat.mod_lt _ (by omega)
  unfold pctTenths
  set q := (2000 * c + t) / (2 * t) with hq
  set m := (2000 * c + t) % (2 * t) with hmdef
  have h1 : (2 * (t : Int)) * (q : Int) = 2000 * (c : Int) + t - m := by
    have h2 : ((2 * t * q + m : Nat) : Int) = ((2000 * c + t : Nat) : Int) := by
      exact_mod_cast congrArg (Nat.cast : Nat → Int) hd
    push_cast at h2
    linarith
  rw [h1]
  have hmz : (m : Int) < 2 * (t : Int) := by exact_mod_cast hm
  have hmz0 : (0 : Int) ≤ (m : Int) := Int.ofNat_nonneg m
  omega

theorem sum_tenths_bound (t : Nat) (ht : 0 < t) (es : List SummaryEntry)
    (h : ∀ e ∈ es, e.tenths = pctTenths e.count t) :
    ((2 * (t : Int)) * (((es.map (·.tenths)).sum : Nat) : Int) -
        2000 * (((es.map (·.count)).sum : Nat) : Int)).natAbs ≤ es.length * t := by
  revert h
  induction es with
  | nil =>
      intro _
      simp
  | cons e es ih =>
      intro h
      have he : e.tenths = pctTenths e.count t := h e (List.mem_cons_self e es)
      have ih2 := ih (fun x hx => h x (List.mem_cons_of_mem e hx))
      have hb := pctTenths_bound e.count t ht
      rw [← he] at hb
      simp only [List.map_cons, List.sum_cons, List.length_cons]
      have key : (2 * (t : Int)) * (((e.tenths + (es.map (·.tenths)).sum : Nat) : Int)) -
          2000 * (((e.count + (es.map (·.count)).sum : Nat) : Int)) =
          ((2 * (t : Int)) * (e.tenths : Int) - 2000 * (e.count : Int)) +
            ((2 * (t : Int)) * (((es.map (·.tenths)).sum : Nat) : Int) -
              2000 * (((es.map (·.count)).sum : Nat) : Int)) := by
        push_cast
        ring
      rw [key]
      refine le_trans (Int.natAbs_add_le _ _) ?_
      refine le_trans (Nat.add_le_add hb ih2) (le_of_eq ?_)
      ring

theorem tenths_sum_close (t k S : Nat) (ht : 0 < t)
    (h : ((2 * (t : Int)) * (S : Int) - 2000 * (t : Int)).natAbs ≤ k * t) :
    ((S : Int) - 1000).natAbs ≤ k := by
  have heq : (2 * (t : Int)) * (S : Int) - 2000 * (t : Int) =
      (2 * (t : Int)) * ((S : Int) - 1000) := by ring
  rw [heq, Int.natAbs_mul] at h
  have h2t : (2 * (t : Int)).natAbs = 2 * t := by
    rw [show (2 * (t : Int)) = ((2 * t : Nat) : Int) by push_cast; ring]
    exact Int.natAbs_ofNat _
  rw [h2t] at h
  have h3 : t * (2 * ((S : Int) - 1000).natAbs) ≤ t * (2 * k) := by
    calc t * (2 * ((S : Int) - 1000).natAbs) = 2 * t * ((S : Int) - 1000).natAbs := by ring
      _ ≤ k * t := h
      _ = t * k := Nat.mul_comm _ _
      _ ≤ t * (2 * k) := Nat.mul_le_mul_left t (by omega)
  have h4 := Nat.le_of_mul_le_mul_left h3 ht
  omega

/-- C7: for every non-empty input, the `status_summary` counts sum to the
number of input issues and the rounded percentages (in tenths of a
percent) sum to 1000 within a tolerance of one tenth per group times the
number of groups; for empty input the summary is the empty mapping. -/
theorem C7_status_summary (issues : List Issue) (pk : String) (now : Timestamp)
    (cfg : AggregationConfig) :
    (issues = [] → (aggregate issues pk now cfg).status_summary = []) ∧
      (issues ≠ [] →
        (((aggregate issues pk now cfg).status_summary).map (·.count)).sum =
            issues.length ∧
          ((((((aggregate issues pk now cfg).status_summary).map (·.tenths)).sum : Nat) : Int) -
              1000).natAbs ≤ ((aggregate issues pk now cfg).status_summary).length) := by
  constructor
  · intro h
    subst h
    rfl
  · intro hne
    dsimp only [aggregate, statusSummary]
    have ht2 : 0 < (issues.map (·.status)).length := by
      rw [List.length_map]
      exact List.length_pos.mpr hne
    constructor
    · rw [summaryOf_counts_sum, List.length_map]
    · have hsum := sum_tenths_bound (issues.map (·.status)).length ht2
        (summaryOf (issues.map (·.status))) (summaryOf_tenths _)
      rw [summaryOf_counts_sum] at hsum
      exact tenths_sum_close _ _ _ ht2 hsum

theorem C7_status_summary_witness :
    (((aggregate [issueBlockedOld, issueDoneOld, issueFuture] "DEVOPS" sampleNow
          AggregationConfig.default).status_summary).map (·.count)).sum =
        ([issueBlockedOld, issueDoneOld, issueFuture] : List Issue).length ∧
      ((((((aggregate [issueBlockedOld, issueDoneOld, issueFuture] "DEVOPS" sampleNow
            AggregationConfig.default).status_summary).map (·.tenths)).sum : Nat) : Int) -
          1000).natAbs ≤
        ((aggregate [issueBlockedOld, issueDoneOld, issueFuture] "DEVOPS" sampleNow
          AggregationConfig.default).status_summary).length :=
  (C7_status_summary [issueBlockedOld, issueDoneOld, issueFuture] "DEVOPS" sampleNow
    AggregationConfig.default).2 (by decide)

/-- C8: `load_config` is total: it returns `none` exactly when the config
file is absent, unreadable, unparsable as JSON, missing `email_address`
or `email_password`, or has a present-but-falsy `email_password`; any
value it does return is the parsed dictionary itself. -/
theorem C8_load_config_total (file : ConfigFile) :
    (load_config file = none ↔
        (file = ConfigFile.absent ∨ file = ConfigFile.readRaises ∨
          file = ConfigFile.invalidJson ∨
          ∃ entries, file = ConfigFile.jsonDict entries ∧
            ((entries.lookup "email_address" = none ∨
                entries.lookup "email_password" = none) ∨
              ∃ v, entries.lookup "email_password" = some v ∧ v.truthy = false))) ∧
      ∀ cfg, load_config file = some cfg → file = ConfigFile.jsonDict cfg := by
  constructor
  · cases file with
    | absent =>
        constructor
        · intro _
          exact Or.inl rfl
        · intro _
          rfl
    | readRaises =>
        constructor
        · intro _
          exact Or.inr (Or.inl rfl)
        · intro _
          rfl
    | invalidJson =>
        constructor
        · intro _
          exact Or.inr (Or.inr (Or.inl rfl))
        · intro _
          rfl
    | jsonDict entries =>
        constructor
        · intro h
          refine Or.inr (Or.inr (Or.inr ⟨entries, rfl, ?_⟩))
          cases hea : entries.lookup "email_address" with
          | none => exact Or.inl (Or.inl rfl)
          | some a =>
              cases hep : entries.lookup "email_password" with
              | none => exact Or.inl (Or.inr rfl)
              | some v =>
                  by_cases hv : v.truthy
                  · exact absurd h (by simp [load_config, hea, hep, hv])
                  · exact Or.inr ⟨v, rfl, by simpa using hv⟩
        · rintro (h | h | h | ⟨entries2, heq, hcond⟩)
          · exact ConfigFile.noConfusion h
          · exact ConfigFile.noConfusion h
          · exact ConfigFile.noConfusion h
          · injection heq with heq
            subst heq
            rcases hcond with (hea | hep) | ⟨v, hep, hv⟩
            · simp [load_config, hea]
            · simp [load_config, hep]
            · cases hea : entries.lookup "email_address" with
              | none => simp [load_config, hea]
              | some a => simp [load_config, hea, hep, hv]
  · intro cfg h
    cases file with
    | absent => exact absurd h (by simp [load_config])
    | readRaises => exact absurd h (by simp [load_config])
    | invalidJson => exact absurd h (by simp [load_config])
    | jsonDict entries =>
        cases hea : entries.lookup "email_address" with
        | none => simp [load_config, hea] at h
        | some a =>
            cases hep : entries.lookup "email_password" with
            | none => simp [load_config, hea, hep] at h
            | some v =>
                by_cases hv : v.truthy
                · simp [load_config, hea, hep, hv] at h
                  rw [h]
                · simp [load_config, hea, hep, hv] at h

def goodEntries : List (String × PyValue) :=
  [("email_address", PyValue.str "user@gmail.com"), ("email_password", PyValue.str "pw")]

theorem C8_load_config_total_witness :
    load_config ConfigFile.absent = none ∧
      ConfigFile.jsonDict goodEntries = ConfigFile.jsonDict goodEntries :=
  ⟨(C8_load_config_total ConfigFile.absent).1.mpr (Or.inl rfl),
    (C8_load_config_total (ConfigFile.jsonDict goodEntries)).2 goodEntries (by decide)⟩

/-- C9 counterexample: at a concrete recipient list and a connection
failure, the two merge-conflict variants of `send_email` are observably
different, refuting the claimed equivalence. -/
theorem C9_counterexample :
    ¬ (send_email_head ["tri.jorge_rodriguez@yahoo.com", "jorge.rodriguez@audacy.com"]
          SmtpWorld.connectFails =
        send_email_merged ["tri.jorge_rodriguez@yahoo.com", "jorge.rodriguez@audacy.com"]
          SmtpWorld.connectFails) := by
  decide

/-- C9 (amended): the two variants agree on the printed failure message
and on whether `quit` completes, but they differ observably: the HEAD
variant builds the To header by joining the recipient list with a comma
while the merged variant stores the raw list value, and when the SMTP
connection fails the HEAD variant returns normally while the merged
variant lets an `AttributeError` escape from its `finally` block. -/
theorem C9_send_email_variants (to_email : List String) (w : SmtpWorld) :
    (send_email_head to_email w).toHeader =
        HeaderVal.str (String.intercalate ", " to_email) ∧
      (send_email_merged to_email w).toHeader = HeaderVal.pyList to_email ∧
      (send_email_head to_email w).uncaught = none ∧
      ((send_email_merged to_email w).uncaught =
        if w = SmtpWorld.connectFails then some "AttributeError" else none) ∧
      (send_email_head to_email w).printedFailure =
        (send_email_merged to_email w).printedFailure ∧
      (send_email_head to_email w).quitCalled = (send_email_merged to_email w).quitCalled := by
  cases w <;> simp [send_email_head, send_email_merged, serverCreated, tryBodyRaises]

/-- C10: the HEAD variant of `send_email` never propagates an exception:
every SMTP-step failure is caught and reported, and `quit` is invoked
exactly when the server object was successfully created, so no attribute
access on None occurs. -/
theorem C10_send_email_head_safe (to_email : List String) (w : SmtpWorld) :
    (send_email_head to_email w).uncaught = none ∧
      (w ≠ SmtpWorld.allOk → (send_email_head to_email w).printedFailure = true) ∧
      ((send_email_head to_email w).quitCalled = true ↔ w ≠ SmtpWorld.connectFails) := by
  cases w <;> simp [send_email_head, serverCreated, tryBodyRaises]

theorem C10_send_email_head_safe_witness :
    (send_email_head ["a@example.com"] SmtpWorld.connectFails).uncaught = none ∧
      (send_email_head ["a@example.com"] SmtpWorld.connectFails).printedFailure = true ∧
      (send_email_head ["a@example.com"] SmtpWorld.connectFails).quitCalled = false := by
  have h := C10_send_email_head_safe ["a@example.com"] SmtpWorld.connectFails
  refine ⟨h.1, h.2.1 (by decide), ?_⟩
  cases hq : (send_email_head ["a@example.com"] SmtpWorld.connectFails).quitCalled
  · rfl
  · exact absurd (h.2.2.mp hq) (by simp)
